import Mathlib

/-!
Verification development for the transaction-construction core of a
multi-asset Bitcoin wallet (UTXO selection, fee computation, transaction
signing, and the BRC-20 commit/reveal fee-estimation hook).

The UTXO selector, fee model, fee resolver and signer are shallowly
embedded below; the BRC-20 estimation hook is embedded from
`src/hooks/brc20/useBrc20TransferFees.ts`.
-/

namespace XverseCore

/-- An unspent transaction output as observed from the indexer
(`UTXO` in `src/types`): identity is `(txid, vout)`, `value` is in
satoshis, and `status.confirmed` is flattened to a `Bool`.
Block metadata (height, time, hash) is omitted as the core only
classifies by the confirmed flag. -/
structure UTXO where
  txid : String
  vout : Nat
  value : Nat
  confirmed : Bool
deriving DecidableEq, Repr

/-- A transaction recipient (`Recipient`): a destination address and an
amount in satoshis. -/
structure Recipient where
  address : String
  amountSats : Nat
deriving DecidableEq, Repr

/-- Total satoshi value of a list of UTXOs (`sumUnspentOutputs`). -/
def sumUnspentOutputs (l : List UTXO) : Nat :=
  (l.map (·.value)).sum

/-- Total satoshi amount of a list of recipients. -/
def sumAmounts (rs : List Recipient) : Nat :=
  (rs.map (·.amountSats)).sum

/-- Modelled from the spec: the virtual-size weight, in vbytes, that one
additional input adds to a transaction, as used by the selector's
per-candidate dust test. The in-repo test
(`src/tests/btc/transactions.test.ts`, dust test) pins it: at fee rate
150 sat/vbyte, adding one input increases the fee by 10500 sats, so the
marginal input weight is 70 vbytes. -/
def selectorInputVsize : Nat := 70

/-- Modelled from the spec: the marginal fee, in satoshis, that including
one more input would add at the given fee rate (the selector's dust
threshold). -/
def marginalInputFee (feeRate : Nat) : Nat := selectorInputVsize * feeRate

/-- Descending-value ordering on UTXOs used by the selector's
largest-first sort. -/
def valueDesc (a b : UTXO) : Prop := b.value ≤ a.value

instance : DecidableRel valueDesc := fun a b => Nat.decLe b.value a.value

instance : IsTotal UTXO valueDesc := ⟨fun a b => Nat.le_total b.value a.value⟩

instance : IsTrans UTXO valueDesc := ⟨fun _ _ _ h h' => Nat.le_trans h' h⟩

/-- Stable descending-by-value sort of a list of UTXOs (ties keep the
original pool order). -/
def sortDescByValue (l : List UTXO) : List UTXO :=
  l.insertionSort valueDesc

/-- Modelled from the spec: the greedy accumulation walk of the UTXO
selector (`selectUnspentOutputs` of `src/transactions/btc`, whose
implementation is not in the accessible source; behaviour is pinned by
the unit tests in `src/tests/btc/transactions.test.ts`).  Walks the
candidate list in order; stops as soon as the accumulated value reaches
the target; skips (without consuming) any candidate whose value is below
the marginal input fee at the given rate; fails when the walk is
exhausted below the target. -/
def selectLoop (target feeRate : Nat) :
    List UTXO → List UTXO → Nat → Option (List UTXO)
  | [], acc, acquired =>
      if target ≤ acquired then some acc.reverse else none
  | u :: rest, acc, acquired =>
      if target ≤ acquired then some acc.reverse
      else if u.value < marginalInputFee feeRate then
        selectLoop target feeRate rest acc acquired
      else
        selectLoop target feeRate rest (u :: acc) (acquired + u.value)

/-- Two UTXOs refer to the same output (identity is `(txid, vout)`). -/
def sameOutput (a b : UTXO) : Bool :=
  a.txid == b.txid && a.vout == b.vout

/-- Modelled from the spec: `selectUnspentOutputs(amountSats, feeRate,
unspentOutputs, pinnedOutput?)` of `src/transactions/btc` (implementation
not in the accessible source; pinned by the in-repo unit tests).  The
pinned (protected) output is removed from the eligible pool, the
remaining UTXOs are partitioned into confirmed and unconfirmed, each
partition is stably sorted descending by value, and the greedy walk runs
confirmed-first.  `none` is the `InsufficientFunds` failure. -/
def selectUnspentOutputs (amountSats feeRate : Nat) (unspentOutputs : List UTXO)
    (pinnedOutput : Option UTXO) : Option (List UTXO) :=
  let eligible := match pinnedOutput with
    | none => unspentOutputs
    | some p => unspentOutputs.filter (fun u => !sameOutput u p)
  let confirmedSorted := sortDescByValue (eligible.filter (·.confirmed))
  let unconfirmedSorted := sortDescByValue (eligible.filter (fun u => !u.confirmed))
  selectLoop amountSats feeRate (confirmedSorted ++ unconfirmedSorted) [] 0

/-- The test pool builder of the UTXO-selection unit tests
(`createUtxo` in `src/tests/btc/transactions.test.ts`). -/
def createUtxo (value : Nat) (confirmed : Bool) : UTXO :=
  { txid := "txid", vout := 0, value := value, confirmed := confirmed }

/- Fidelity checks: the embedded selector reproduces every UTXO-selection
unit test of `src/tests/btc/transactions.test.ts` (lines 41-93). -/

example :
    selectUnspentOutputs 10000 22 [createUtxo 10000 true, createUtxo 20000 true] none =
      some [createUtxo 20000 true] := by decide

example :
    selectUnspentOutputs 25000 22 [createUtxo 10000 true, createUtxo 20000 true] none =
      some [createUtxo 20000 true, createUtxo 10000 true] := by decide

example :
    selectUnspentOutputs 10000 22
      [createUtxo 10000 true, createUtxo 20000 true, createUtxo 30000 false] none =
      some [createUtxo 20000 true] := by decide

example :
    selectUnspentOutputs 30000 22
      [createUtxo 10000 true, createUtxo 20000 true, createUtxo 30000 false] none =
      some [createUtxo 20000 true, createUtxo 10000 true] := by decide

example :
    selectUnspentOutputs 40000 22
      [createUtxo 10000 true, createUtxo 20000 true, createUtxo 30000 false] none =
      some [createUtxo 20000 true, createUtxo 10000 true, createUtxo 30000 false] := by decide

example :
    selectUnspentOutputs 30000 150
      [createUtxo 10000 true, createUtxo 20000 true, createUtxo 30000 false] none =
      some [createUtxo 20000 true, createUtxo 30000 false] := by decide

/-- Modelled from the spec: per-input virtual-size weight of the fee
model (`estimateVirtualSize`) for the wrapped-segwit (P2WPKH-in-P2SH)
inputs used throughout; pinned by the in-repo fee tests (2 inputs /
3 outputs → 294 vbytes, 2 inputs / 2 outputs → 260 vbytes). -/
def inputVsize : Nat := 91

/-- Modelled from the spec: per-output virtual-size weight of the fee
model for the P2PKH outputs used in the tests. -/
def outputVsize : Nat := 34

/-- Modelled from the spec: base transaction overhead of the fee model
in vbytes. -/
def txOverheadVsize : Nat := 10

/-- Modelled from the spec: `estimateVirtualSize` — virtual size in
vbytes of a transaction with the given input and output counts, using
the fixed per-script-type weights above. -/
def estimateVSize (inputCount outputCount : Nat) : Nat :=
  txOverheadVsize + inputVsize * inputCount + outputVsize * outputCount

/-- Modelled from the spec: `calculateFee` of `src/transactions/btc`
(implementation not in the accessible source).  The fee is the estimated
virtual size of a transaction spending the selected UTXOs into one
output per recipient plus a change output, multiplied by the fee rate. -/
def calculateFee (selectedUtxos : List UTXO) (recipients : List Recipient)
    (feeRate : Nat) : Nat :=
  estimateVSize selectedUtxos.length (recipients.length + 1) * feeRate

/-- Modelled from the spec: the Fee Resolver's bounded fixed-point loop
between input-set selection and required fee: selection is attempted for
the current target; if the selected set does not cover amount + fee of
that set, selection is re-run with the target raised to amount + fee.
`none` is the `InsufficientFunds` failure. -/
def resolveFeeLoop (amountSats feeRate : Nat) (recipients : List Recipient)
    (pool : List UTXO) : Nat → Nat → Option (List UTXO × Nat)
  | 0, _ => none
  | fuel + 1, target =>
    match selectUnspentOutputs target feeRate pool none with
    | none => none
    | some sel =>
      if amountSats + calculateFee sel recipients feeRate ≤ sumUnspentOutputs sel then
        some (sel, calculateFee sel recipients feeRate)
      else
        resolveFeeLoop amountSats feeRate recipients pool fuel
          (amountSats + calculateFee sel recipients feeRate)

/-- Modelled from the spec: `getBtcFees` — fee-only resolution for a
plain send: resolve a self-consistent (selection, fee) pair for the
recipients' total at the given fee rate over the given UTXO pool. -/
def getBtcFees (recipients : List Recipient) (feeRate : Nat)
    (pool : List UTXO) : Option (List UTXO × Nat) :=
  resolveFeeLoop (sumAmounts recipients) feeRate recipients pool
    (pool.length + 1) (sumAmounts recipients)

/-- Error kinds of the core's failure taxonomy (spec section 7); the
in-repo test pins that insufficient funds surfaces as the distinct
code 601. -/
inductive TxErrorCode where
  | insufficientFunds
  | invalidAddress
  | networkError
deriving DecidableEq, Repr

/-- Result of a successful build-and-sign: the spent selection and the
final fee in satoshis. -/
structure SignedTxResult where
  selection : List UTXO
  fee : Nat
deriving DecidableEq, Repr

/-- Observable collaborator effects of one signing call: how many times
the recommended-fee-rate endpoint was fetched, and whether a signature
was produced. -/
structure SignEffects where
  feeRateFetches : Nat
  signed : Bool
deriving DecidableEq, Repr

/-- Modelled from the spec: `signBtcTransaction` of
`src/transactions/btc` (implementation not in the accessible source).
With a custom fee, the fee-rate fetch and size iteration are bypassed:
selection gathers recipients' total + custom fee (no rate-based dust
filtering) and the fee is fixed to the custom fee.  Otherwise the fee
rate is fetched once and the resolver's fixed-point loop runs.  Signing
happens only after a fully funded plan is resolved; selection failure
aborts with `insufficientFunds` before any signing. -/
def signBtcTransaction (recipients : List Recipient) (changeAddress : String)
    (pool : List UTXO) (feeRateOracle : Nat) (customFees : Option Nat) :
    Except TxErrorCode SignedTxResult × SignEffects :=
  match customFees with
  | some c =>
    match selectUnspentOutputs (sumAmounts recipients + c) 0 pool none with
    | none => (Except.error TxErrorCode.insufficientFunds, ⟨0, false⟩)
    | some sel => (Except.ok ⟨sel, c⟩, ⟨0, true⟩)
  | none =>
    match resolveFeeLoop (sumAmounts recipients) feeRateOracle recipients pool
        (pool.length + 1) (sumAmounts recipients) with
    | none => (Except.error TxErrorCode.insufficientFunds, ⟨1, false⟩)
    | some (sel, fee) => (Except.ok ⟨sel, fee⟩, ⟨1, true⟩)

/-- Removes from a pool every UTXO that appears in the given
inscription-holding list (`filterUtxos`). -/
def filterUtxos (pool : List UTXO) (ordinalUtxos : List UTXO) : List UTXO :=
  pool.filter fun u => ordinalUtxos.all fun o => !sameOutput u o

/-- Modelled from the spec: the fee of an ordinal send: the inscription
UTXO is a mandatory extra input and the outputs are the recipient and a
change output. -/
def calculateOrdinalFee (selectedUtxos : List UTXO) (feeRate : Nat) : Nat :=
  estimateVSize (selectedUtxos.length + 1) 2 * feeRate

/-- Modelled from the spec: fee resolution for an ordinal send: the
payment-address selection only needs to fund the fee. -/
def resolveOrdinalFeeLoop (feeRate : Nat) (eligible : List UTXO)
    (ordinalUtxo : UTXO) : Nat → Nat → Option (List UTXO × Nat)
  | 0, _ => none
  | fuel + 1, target =>
    match selectUnspentOutputs target feeRate eligible (some ordinalUtxo) with
    | none => none
    | some sel =>
      if calculateOrdinalFee sel feeRate ≤ sumUnspentOutputs sel then
        some (sel, calculateOrdinalFee sel feeRate)
      else
        resolveOrdinalFeeLoop feeRate eligible ordinalUtxo fuel
          (calculateOrdinalFee sel feeRate)

/-- Modelled from the spec: `signOrdinalSendTransaction` of
`src/transactions/btc` (implementation not in the accessible source).
The inscription UTXO is forced as the first input; UTXOs in the
exclusion list are never selected as funding; with a custom fee the
rate fetch is bypassed and the fee is fixed to the custom fee. -/
def signOrdinalSendTransaction (recipientAddress : String) (ordinalUtxo : UTXO)
    (pool : List UTXO) (feeRateOracle : Nat) (ordinalExclusions : List UTXO)
    (customFees : Option Nat) : Except TxErrorCode SignedTxResult × SignEffects :=
  let eligible := filterUtxos pool ordinalExclusions
  match customFees with
  | some c =>
    match selectUnspentOutputs c 0 eligible (some ordinalUtxo) with
    | none => (Except.error TxErrorCode.insufficientFunds, ⟨0, false⟩)
    | some sel => (Except.ok ⟨ordinalUtxo :: sel, c⟩, ⟨0, true⟩)
  | none =>
    match resolveOrdinalFeeLoop feeRateOracle eligible ordinalUtxo
        (eligible.length + 1) 0 with
    | none => (Except.error TxErrorCode.insufficientFunds, ⟨1, false⟩)
    | some (sel, fee) => (Except.ok ⟨ordinalUtxo :: sel, fee⟩, ⟨1, true⟩)

/- Structural lemmas about the greedy walk. -/

theorem sumUnspentOutputs_reverse (l : List UTXO) :
    sumUnspentOutputs l.reverse = sumUnspentOutputs l := by
  simp [sumUnspentOutputs, List.sum_reverse]

theorem selectLoop_of_target_le {target feeRate acquired : Nat} (L acc : List UTXO)
    (h : target ≤ acquired) :
    selectLoop target feeRate L acc acquired = some acc.reverse := by
  cases L <;> simp [selectLoop, h]

theorem selectLoop_append {target feeRate : Nat} (xs : List UTXO) :
    ∀ (ys acc : List UTXO) (acquired : Nat) (res : List UTXO),
      selectLoop target feeRate xs acc acquired = some res →
      selectLoop target feeRate (xs ++ ys) acc acquired = some res := by
  induction xs with
  | nil =>
    intro ys acc acquired res h
    simp only [selectLoop] at h
    split at h
    · cases h
      simpa using selectLoop_of_target_le ys acc (by assumption)
    · cases h
  | cons u rest ih =>
    intro ys acc acquired res h
    simp only [List.cons_append, selectLoop] at h ⊢
    by_cases h1 : target ≤ acquired
    · rw [if_pos h1] at h ⊢
      exact h
    · rw [if_neg h1] at h ⊢
      by_cases h2 : u.value < marginalInputFee feeRate
      · rw [if_pos h2] at h ⊢
        exact ih ys acc acquired res h
      · rw [if_neg h2] at h ⊢
        exact ih ys (u :: acc) (acquired + u.value) res h

theorem selectLoop_sublist {target feeRate : Nat} (L : List UTXO) :
    ∀ (acc : List UTXO) (acquired : Nat) (res : List UTXO),
      selectLoop target feeRate L acc acquired = some res →
      ∃ tail, res = acc.reverse ++ tail ∧ tail.Sublist L := by
  induction L with
  | nil =>
    intro acc acquired res h
    simp only [selectLoop] at h
    split at h
    · cases h
      exact ⟨[], by simp⟩
    · cases h
  | cons u rest ih =>
    intro acc acquired res h
    simp only [selectLoop] at h
    split at h
    · cases h
      exact ⟨[], by simp⟩
    · split at h
      · obtain ⟨tail, rfl, hsub⟩ := ih acc acquired res h
        exact ⟨tail, rfl, hsub.cons u⟩
      · obtain ⟨tail, rfl, hsub⟩ := ih (u :: acc) (acquired + u.value) res h
        exact ⟨u :: tail, by simp, hsub.cons₂ u⟩

theorem selectLoop_target_reached {target feeRate : Nat} (L : List UTXO) :
    ∀ (acc : List UTXO) (acquired : Nat) (res : List UTXO),
      selectLoop target feeRate L acc acquired = some res →
      acquired = sumUnspentOutputs acc →
      target ≤ sumUnspentOutputs res := by
  induction L with
  | nil =>
    intro acc acquired res h hacq
    simp only [selectLoop] at h
    split at h
    · cases h
      rw [sumUnspentOutputs_reverse]
      omega
    · cases h
  | cons u rest ih =>
    intro acc acquired res h hacq
    simp only [selectLoop] at h
    split at h
    · cases h
      rw [sumUnspentOutputs_reverse]
      omega
    · split at h
      · exact ih acc acquired res h hacq
      · refine ih (u :: acc) (acquired + u.value) res h ?_
        simp [sumUnspentOutputs] at hacq ⊢
        omega

theorem selectLoop_no_dust {target feeRate : Nat} (L : List UTXO) :
    ∀ (acc : List UTXO) (acquired : Nat) (res : List UTXO),
      selectLoop target feeRate L acc acquired = some res →
      (∀ u ∈ acc, marginalInputFee feeRate ≤ u.value) →
      ∀ u ∈ res, marginalInputFee feeRate ≤ u.value := by
  induction L with
  | nil =>
    intro acc acquired res h hacc
    simp only [selectLoop] at h
    split at h
    · cases h
      intro u hu
      exact hacc u (List.mem_reverse.mp hu)
    · cases h
  | cons v rest ih =>
    intro acc acquired res h hacc
    simp only [selectLoop] at h
    split at h
    · cases h
      intro u hu
      exact hacc u (List.mem_reverse.mp hu)
    · split at h
      · exact ih acc acquired res h hacc
      · refine ih (v :: acc) (acquired + v.value) res h ?_
        intro u hu
        rcases List.mem_cons.mp hu with rfl | hu
        · omega
        · exact hacc u hu

theorem selectLoop_none {target feeRate : Nat} (L : List UTXO) :
    ∀ (acc : List UTXO) (acquired : Nat),
      selectLoop target feeRate L acc acquired = none →
      acquired + sumUnspentOutputs
          (L.filter fun u => marginalInputFee feeRate ≤ u.value) < target := by
  induction L with
  | nil =>
    intro acc acquired h
    simp only [selectLoop] at h
    split at h
    · cases h
    · simp [sumUnspentOutputs]
      omega
  | cons u rest ih =>
    intro acc acquired h
    simp only [selectLoop] at h
    split at h
    · cases h
    · split at h
      · have := ih acc acquired h
        have hu : (decide (marginalInputFee feeRate ≤ u.value)) = false := by
          simp
          omega
        simpa [List.filter_cons, hu] using this
      · have := ih (u :: acc) (acquired + u.value) h
        have hu : (decide (marginalInputFee feeRate ≤ u.value)) = true := by
          simp
          omega
        simp [List.filter_cons, hu, sumUnspentOutputs] at this ⊢
        omega

theorem selectLoop_cons_skip {target feeRate acquired : Nat} {u : UTXO}
    (L acc : List UTXO) (h1 : ¬target ≤ acquired)
    (h2 : u.value < marginalInputFee feeRate) :
    selectLoop target feeRate (u :: L) acc acquired =
      selectLoop target feeRate L acc acquired := by
  simp [selectLoop, h1, h2]

theorem selectLoop_cons_take {target feeRate acquired : Nat} {u : UTXO}
    (L acc : List UTXO) (h1 : ¬target ≤ acquired)
    (h2 : ¬u.value < marginalInputFee feeRate) :
    selectLoop target feeRate (u :: L) acc acquired =
      selectLoop target feeRate L (u :: acc) (acquired + u.value) := by
  simp [selectLoop, h1, h2]

/-- The walk list of the selector (confirmed sorted descending, then
unconfirmed sorted descending) is a permutation of the pool. -/
theorem walk_perm (pool : List UTXO) :
    (sortDescByValue (pool.filter fun u => u.confirmed) ++
        sortDescByValue (pool.filter fun u => !u.confirmed)).Perm pool := by
  have h1 := List.perm_insertionSort valueDesc (pool.filter fun u => u.confirmed)
  have h2 := List.perm_insertionSort valueDesc (pool.filter fun u => !u.confirmed)
  exact (h1.append h2).trans (List.filter_append_perm (fun u => u.confirmed) pool)

/-- C1 (amended): for every UTXO pool, target amount and fee rate,
`selectUnspentOutputs` either returns a sub-permutation of the pool whose
total value is at least the target (fee coverage is obtained by callers
re-invoking selection with the target increased by the computed fee), or
fails (`InsufficientFunds`, here `none`) exactly when the eligible
non-dust UTXOs together cannot reach the target. -/
theorem selectUnspentOutputs_correct (amountSats feeRate : Nat) (pool : List UTXO) :
    (∀ s, selectUnspentOutputs amountSats feeRate pool none = some s →
        s.Subperm pool ∧ amountSats ≤ sumUnspentOutputs s) ∧
    (selectUnspentOutputs amountSats feeRate pool none = none →
        sumUnspentOutputs (pool.filter fun u => marginalInputFee feeRate ≤ u.value) <
          amountSats) := by
  constructor
  · intro s hs
    simp only [selectUnspentOutputs] at hs
    obtain ⟨tail, htail, hsub⟩ :=
      selectLoop_sublist _ [] 0 s hs
    simp only [List.reverse_nil, List.nil_append] at htail
    subst htail
    refine ⟨hsub.subperm.trans (walk_perm pool).subperm, ?_⟩
    exact selectLoop_target_reached _ [] 0 s hs rfl
  · intro hnone
    simp only [selectUnspentOutputs] at hnone
    have hlt := selectLoop_none _ [] 0 hnone
    have hperm := (walk_perm pool).filter fun u => decide (marginalInputFee feeRate ≤ u.value)
    have hsum : sumUnspentOutputs
        ((sortDescByValue (pool.filter fun u => u.confirmed) ++
          sortDescByValue (pool.filter fun u => !u.confirmed)).filter
            fun u => marginalInputFee feeRate ≤ u.value) =
        sumUnspentOutputs (pool.filter fun u => marginalInputFee feeRate ≤ u.value) := by
      unfold sumUnspentOutputs
      exact (hperm.map fun u => u.value).sum_eq
    omega

/-- C1 counterexample: at the pool `{10000 confirmed, 20000 confirmed,
30000 unconfirmed}`, target 30000 and rate 22 (pinned by the in-repo
unit test), the selector returns `[20000, 10000]` whose total value,
30000, equals the bare target and therefore falls short of the target
plus the fee of that subset at rate 22 — even counting only the two
inputs' own marginal fees, the cheapest part of the fee of any subset. -/
theorem selectUnspentOutputs_fee_shortfall :
    selectUnspentOutputs 30000 22
        [createUtxo 10000 true, createUtxo 20000 true, createUtxo 30000 false] none =
      some [createUtxo 20000 true, createUtxo 10000 true] ∧
    sumUnspentOutputs [createUtxo 20000 true, createUtxo 10000 true] <
      30000 +
        [createUtxo 20000 true, createUtxo 10000 true].length * marginalInputFee 22 := by
  decide

/-- C1 witness: the amended theorem applied to the two-UTXO pool of the
first selection unit test: the returned selection `[20000]` is a
sub-permutation of the pool and reaches the target 10000. -/
theorem selectUnspentOutputs_correct_witness :
    ([createUtxo 20000 true] : List UTXO).Subperm
        [createUtxo 10000 true, createUtxo 20000 true] ∧
      10000 ≤ sumUnspentOutputs [createUtxo 20000 true] :=
  (selectUnspentOutputs_correct 10000 22
      [createUtxo 10000 true, createUtxo 20000 true]).1
    [createUtxo 20000 true] (by decide)

/-- C2: a UTXO whose value is below the marginal input fee that
including it would add at the given rate is never part of the selection
returned by `selectUnspentOutputs` (the greedy walk skips it and
continues past it). -/
theorem selected_utxo_not_dust (amountSats feeRate : Nat) (pool : List UTXO)
    (pinnedOutput : Option UTXO) (s : List UTXO)
    (h : selectUnspentOutputs amountSats feeRate pool pinnedOutput = some s) :
    ∀ u ∈ s, ¬(u.value < marginalInputFee feeRate) := by
  intro u hu
  cases pinnedOutput <;>
  · simp only [selectUnspentOutputs] at h
    have := selectLoop_no_dust _ [] 0 s h (by intro v hv; cases hv) u hu
    omega

/-- C2 witness: at the dust unit test's pool (target 30000, rate 150)
the selection `[20000 confirmed, 30000 unconfirmed]` — which skipped the
10000 UTXO and continued past it — contains no UTXO below the marginal
input fee 10500. -/
theorem selected_utxo_not_dust_witness :
    ¬((createUtxo 20000 true).value < marginalInputFee 150) ∧
    ¬((createUtxo 30000 false).value < marginalInputFee 150) :=
  ⟨selected_utxo_not_dust 30000 150
      [createUtxo 10000 true, createUtxo 20000 true, createUtxo 30000 false] none
      [createUtxo 20000 true, createUtxo 30000 false] (by decide)
      (createUtxo 20000 true) (by decide),
    selected_utxo_not_dust 30000 150
      [createUtxo 10000 true, createUtxo 20000 true, createUtxo 30000 false] none
      [createUtxo 20000 true, createUtxo 30000 false] (by decide)
      (createUtxo 30000 false) (by decide)⟩

/-- C3: if the confirmed UTXOs alone suffice (selection over the
confirmed part of the pool succeeds), the full-pool selection is that
same all-confirmed selection — no unconfirmed UTXO is included; and any
selection splits as confirmed UTXOs followed by unconfirmed ones, each
partition taken in descending order of value. -/
theorem confirmed_first (amountSats feeRate : Nat) (pool : List UTXO) :
    (∀ s, selectUnspentOutputs amountSats feeRate
          (pool.filter fun u => u.confirmed) none = some s →
        selectUnspentOutputs amountSats feeRate pool none = some s ∧
          ∀ u ∈ s, u.confirmed = true) ∧
    (∀ s, selectUnspentOutputs amountSats feeRate pool none = some s →
        ∃ s₁ s₂, s = s₁ ++ s₂ ∧ (∀ u ∈ s₁, u.confirmed = true) ∧
          (∀ u ∈ s₂, u.confirmed = false) ∧
          s₁.Pairwise valueDesc ∧ s₂.Pairwise valueDesc) := by
  constructor
  · intro s hs
    simp only [selectUnspentOutputs, List.filter_filter] at hs
    have e1 : (fun (u : UTXO) => u.confirmed && u.confirmed) = fun u => u.confirmed := by
      funext u
      cases u.confirmed <;> rfl
    have e2 : pool.filter (fun u => !u.confirmed && u.confirmed) = [] := by
      refine List.filter_eq_nil_iff.mpr fun u _ => ?_
      cases u.confirmed <;> simp
    rw [e1, e2] at hs
    have hs' : selectLoop amountSats feeRate
        (sortDescByValue (pool.filter fun u => u.confirmed)) [] 0 = some s := by
      simpa [sortDescByValue, List.insertionSort] using hs
    constructor
    · simp only [selectUnspentOutputs]
      exact selectLoop_append _ _ [] 0 s hs'
    · intro u hu
      obtain ⟨tail, htail, hsub⟩ := selectLoop_sublist _ [] 0 s hs'
      simp only [List.reverse_nil, List.nil_append] at htail
      subst htail
      have hmem : u ∈ sortDescByValue (pool.filter fun u => u.confirmed) :=
        hsub.subset hu
      rw [sortDescByValue, List.mem_insertionSort] at hmem
      exact (List.mem_filter.mp hmem).2
  · intro s hs
    simp only [selectUnspentOutputs] at hs
    obtain ⟨tail, htail, hsub⟩ := selectLoop_sublist _ [] 0 s hs
    simp only [List.reverse_nil, List.nil_append] at htail
    subst htail
    rw [List.sublist_append_iff] at hsub
    obtain ⟨s₁, s₂, rfl, h1, h2⟩ := hsub
    refine ⟨s₁, s₂, rfl, ?_, ?_, ?_, ?_⟩
    · intro u hu
      have hmem := h1.subset hu
      rw [sortDescByValue, List.mem_insertionSort] at hmem
      exact (List.mem_filter.mp hmem).2
    · intro u hu
      have hmem := h2.subset hu
      rw [sortDescByValue, List.mem_insertionSort] at hmem
      have := (List.mem_filter.mp hmem).2
      simpa using this
    · exact List.Pairwise.sublist h1 (List.sorted_insertionSort valueDesc _)
    · exact List.Pairwise.sublist h2 (List.sorted_insertionSort valueDesc _)

/-- C3 witness: with pool `{10000 confirmed, 20000 confirmed, 30000
unconfirmed}` and target 10000, the confirmed UTXOs alone cover the
target, and the theorem yields the full-pool selection `[20000]` with no
unconfirmed UTXO in it. -/
theorem confirmed_first_witness :
    selectUnspentOutputs 10000 22
        [createUtxo 10000 true, createUtxo 20000 true, createUtxo 30000 false] none =
      some [createUtxo 20000 true] ∧
    ∀ u ∈ [createUtxo 20000 true], u.confirmed = true :=
  (confirmed_first 10000 22
      [createUtxo 10000 true, createUtxo 20000 true, createUtxo 30000 false]).1
    [createUtxo 20000 true] (by decide)

/- Concrete data from the in-repo fee and signing tests. -/

/-- The 100000-sat confirmed UTXO of the fee-calculation tests. -/
def u100k : UTXO := ⟨"8c", 2, 100000, true⟩

/-- The 200000-sat confirmed UTXO of the fee-calculation tests. -/
def u200k : UTXO := ⟨"8d", 2, 200000, true⟩

/-- The 250000-sat confirmed UTXO of the fee-calculation tests. -/
def u250k : UTXO := ⟨"8e", 2, 250000, true⟩

/-- The three-UTXO confirmed pool of the fee-calculation tests. -/
def feeTestPool : List UTXO := [u100k, u200k, u250k]

/-- The two recipients (200000 and 100000 sats) of the fee tests. -/
def feeTestRecipients : List Recipient := [⟨"1QBw", 200000⟩, ⟨"18xd", 100000⟩]

/-- Evaluation of the selector on the fee-test pool: for any fee rate up
to 510 sat/vbyte the two largest UTXOs are selected. -/
theorem select_feeTestPool (rate : Nat) (h : rate ≤ 510) :
    selectUnspentOutputs 300000 rate feeTestPool none = some [u250k, u200k] := by
  have hmarg : marginalInputFee rate ≤ 35700 := by
    simp only [marginalInputFee, selectorInputVsize]
    omega
  show selectLoop 300000 rate [u250k, u200k, u100k] [] 0 = some [u250k, u200k]
  rw [selectLoop_cons_take (u := u250k) [u200k, u100k] [] (by omega)
    (show ¬((250000 : Nat) < marginalInputFee rate) by omega)]
  show selectLoop 300000 rate [u200k, u100k] [u250k] 250000 = some [u250k, u200k]
  rw [selectLoop_cons_take (u := u200k) [u100k] [u250k] (by omega)
    (show ¬((200000 : Nat) < marginalInputFee rate) by omega)]
  show selectLoop 300000 rate [u100k] [u200k, u250k] 450000 = some [u250k, u200k]
  rw [selectLoop_of_target_le [u100k] [u200k, u250k] (by omega)]
  rfl

/-- C7: the 2-recipient send of 200000 and 100000 sats funded from the
three confirmed UTXOs 100000/200000/250000 resolves, at any fixed
regular rate (up to the 510 sat/vbyte bound at which the pool stops
covering the fee), to a transaction of exactly 294 vbytes — 2 selected
inputs, 2 recipient outputs and a change output — with fee exactly
294 × rate. -/
theorem getBtcFees_294_vbytes (rate : Nat) (hrate : rate ≤ 510) :
    getBtcFees feeTestRecipients rate feeTestPool =
      some ([u250k, u200k], 294 * rate) ∧
    estimateVSize 2 (feeTestRecipients.length + 1) = 294 := by
  refine ⟨?_, rfl⟩
  show resolveFeeLoop 300000 rate feeTestRecipients feeTestPool (3 + 1) 300000 =
      some ([u250k, u200k], 294 * rate)
  simp only [resolveFeeLoop]
  rw [select_feeTestPool rate hrate]
  show (if 300000 + 294 * rate ≤ 450000 then some ([u250k, u200k], 294 * rate)
      else resolveFeeLoop 300000 rate feeTestRecipients feeTestPool 3
        (300000 + 294 * rate)) = some ([u250k, u200k], 294 * rate)
  rw [if_pos (by omega)]

/-- C7 witness: at rate 30 the resolver returns the 294-vbyte plan with
fee 294 × 30. -/
theorem getBtcFees_294_vbytes_witness :
    getBtcFees feeTestRecipients 30 feeTestPool =
      some ([u250k, u200k], 294 * 30) ∧
    estimateVSize 2 (feeTestRecipients.length + 1) = 294 :=
  getBtcFees_294_vbytes 30 (by omega)

/-- C4: for a plain send and for an ordinal send with an explicit custom
fee, the fee-rate endpoint is never fetched (rate-based computation is
bypassed) and any signed result's fee equals exactly the supplied custom
fee. -/
theorem custom_fee_bypasses_rate (recipients : List Recipient)
    (changeAddress recipientAddress : String) (pool : List UTXO)
    (feeRateOracle c : Nat) (ordinalUtxo : UTXO) (ordinalExclusions : List UTXO) :
    ((signBtcTransaction recipients changeAddress pool feeRateOracle
        (some c)).2.feeRateFetches = 0 ∧
      ∀ res, (signBtcTransaction recipients changeAddress pool feeRateOracle
          (some c)).1 = Except.ok res → res.fee = c) ∧
    ((signOrdinalSendTransaction recipientAddress ordinalUtxo pool feeRateOracle
        ordinalExclusions (some c)).2.feeRateFetches = 0 ∧
      ∀ res, (signOrdinalSendTransaction recipientAddress ordinalUtxo pool
          feeRateOracle ordinalExclusions (some c)).1 = Except.ok res →
        res.fee = c) := by
  constructor
  · simp only [signBtcTransaction]
    cases hsel : selectUnspentOutputs (sumAmounts recipients + c) 0 pool none with
    | none =>
      refine ⟨rfl, fun res hres => ?_⟩
      simp at hres
    | some sel =>
      refine ⟨rfl, fun res hres => ?_⟩
      simp only [Except.ok.injEq] at hres
      rw [← hres]
  · simp only [signOrdinalSendTransaction]
    cases hsel : selectUnspentOutputs c 0 (filterUtxos pool ordinalExclusions)
        (some ordinalUtxo) with
    | none =>
      refine ⟨rfl, fun res hres => ?_⟩
      simp at hres
    | some sel =>
      refine ⟨rfl, fun res hres => ?_⟩
      simp only [Except.ok.injEq] at hres
      rw [← hres]

/-- The four-UTXO pool of the custom-fee signing test
(100000/200000/1000/1000 sats, all confirmed). -/
def customFeePool : List UTXO :=
  [u100k, u200k, ⟨"8e", 2, 1000, true⟩, ⟨"8f", 2, 1000, true⟩]

/-- The inscription UTXO of the ordinal signing tests (80000 sats). -/
def ordinalTestUtxo : UTXO := ⟨"43", 2, 80000, true⟩

/-- The payment-address pool of the ordinal signing tests. -/
def ordinalTestPool : List UTXO := [⟨"8c", 2, 1000, true⟩, ⟨"8d", 2, 10000, true⟩]

/-- C4 witness: at the custom-fee test inputs (plain send with custom
fee 500, ordinal send with custom fee 2000) no fee-rate fetch happens
and the signed results' fees are exactly the custom fees. -/
theorem custom_fee_bypasses_rate_witness :
    (signBtcTransaction feeTestRecipients "1H8v" customFeePool 22
        (some 500)).2.feeRateFetches = 0 ∧
    (SignedTxResult.mk [u200k, u100k, ⟨"8e", 2, 1000, true⟩] 500).fee = 500 ∧
    (signOrdinalSendTransaction "1QBw" ordinalTestUtxo ordinalTestPool 22
        [ordinalTestUtxo] (some 2000)).2.feeRateFetches = 0 ∧
    (SignedTxResult.mk [ordinalTestUtxo, ⟨"8d", 2, 10000, true⟩] 2000).fee = 2000 :=
  ⟨(custom_fee_bypasses_rate feeTestRecipients "1H8v" "1QBw" customFeePool 22 500
      ordinalTestUtxo []).1.1,
    (custom_fee_bypasses_rate feeTestRecipients "1H8v" "1QBw" customFeePool 22 500
        ordinalTestUtxo []).1.2 _ (by rfl),
    (custom_fee_bypasses_rate feeTestRecipients "1QBw" "1QBw" ordinalTestPool 22 2000
        ordinalTestUtxo [ordinalTestUtxo]).2.1,
    (custom_fee_bypasses_rate feeTestRecipients "1QBw" "1QBw" ordinalTestPool 22 2000
        ordinalTestUtxo [ordinalTestUtxo]).2.2 _ (by rfl)⟩

/-- C5: when the resolver cannot cover the recipients' total plus the
required fee (`resolveFeeLoop` fails), `signBtcTransaction` fails with
the `insufficientFunds` error kind — distinct from the address and
network error kinds — with no signature produced (`signed = false`): no
partially signed transaction exists for an under-funded plan. -/
theorem insufficient_funds_aborts (recipients : List Recipient)
    (changeAddress : String) (pool : List UTXO) (feeRateOracle : Nat)
    (h : resolveFeeLoop (sumAmounts recipients) feeRateOracle recipients pool
        (pool.length + 1) (sumAmounts recipients) = none) :
    signBtcTransaction recipients changeAddress pool feeRateOracle none =
      (Except.error TxErrorCode.insufficientFunds, ⟨1, false⟩) ∧
    TxErrorCode.insufficientFunds ≠ TxErrorCode.invalidAddress ∧
    TxErrorCode.insufficientFunds ≠ TxErrorCode.networkError := by
  refine ⟨?_, by decide, by decide⟩
  simp only [signBtcTransaction, h]

/-- The five small confirmed UTXOs (total 17562 sats) of the
insufficient-balance signing test. -/
def lowFundsPool : List UTXO :=
  [⟨"cd", 0, 5500, true⟩, ⟨"e6", 1, 3911, true⟩, ⟨"42", 12, 941, true⟩,
    ⟨"e6", 0, 5700, true⟩, ⟨"32", 1, 1510, true⟩]

/-- The single 60000-sat recipient of the insufficient-balance test. -/
def lowFundsRecipients : List Recipient := [⟨"3Fij", 60000⟩]

/-- C5 witness: at the insufficient-balance test pool, signing fails
with `insufficientFunds`, unsigned. -/
theorem insufficient_funds_aborts_witness :
    signBtcTransaction lowFundsRecipients "3Codr" lowFundsPool 22 none =
      (Except.error TxErrorCode.insufficientFunds, ⟨1, false⟩) ∧
    TxErrorCode.insufficientFunds ≠ TxErrorCode.invalidAddress ∧
    TxErrorCode.insufficientFunds ≠ TxErrorCode.networkError :=
  insufficient_funds_aborts lowFundsRecipients "3Codr" lowFundsPool 22 (by rfl)

/-! BRC-20 commit/reveal fee-estimation hook, embedded from
`src/hooks/brc20/useBrc20TransferFees.ts`. -/

/-- The BRC-20 error codes the hook distinguishes (`BRC20ErrorCode`):
`INSUFFICIENT_FUNDS` triggers the advisory fallback estimate;
`SERVER_ERROR` is the catch-all the hook assigns to unclassified
failures. -/
inductive BRC20ErrorCode where
  | INSUFFICIENT_FUNDS
  | SERVER_ERROR
deriving DecidableEq, Repr

/-- The per-estimate fee breakdown returned by
`brc20TransferEstimateFees` (`CommitValueBreakdown`). -/
structure CommitValueBreakdown where
  commitChainFee : Nat
  revealChainFee : Nat
  revealServiceFee : Nat
  transferChainFee : Nat
  transferUtxoValue : Nat
deriving DecidableEq, Repr

/-- Outcome of one awaited `brc20TransferEstimateFees` call as the
hook's `try`/`catch` observes it: success with a commit value and
breakdown; an axios cancellation; a `CoreError` whose code is a
recognised `BRC20ErrorCode`; or any other error. -/
inductive EstimateOutcome where
  | success (commitValue : Nat) (valueBreakdown : CommitValueBreakdown)
  | cancelled
  | coreError (code : BRC20ErrorCode)
  | otherError
deriving DecidableEq, Repr

/-- The hook's caller-visible React state: `commitValue`,
`commitValueBreakdown`, `isLoading` and `errorCode`. -/
structure HookState where
  commitValue : Option Nat
  commitValueBreakdown : Option CommitValueBreakdown
  isLoading : Bool
  errorCode : Option BRC20ErrorCode
deriving DecidableEq, Repr

/-- The value `callEstimate` returns to `runEstimate`: the string
`'cancelled'`, a recognised error code, or `undefined`. -/
inductive CallEstimateReturn where
  | cancelledMarker
  | errCode (c : BRC20ErrorCode)
  | undef
deriving DecidableEq, Repr

/-- Which of the hook's two cancel-token-scoped estimate calls ran
(primary = real UTXOs, fallback = fictitious UTXO). -/
inductive EstimateCall where
  | primaryCall
  | fallbackCall
deriving DecidableEq, Repr

/-- The inner `callEstimate` closure of the hook: on success it writes
`commitValue` and `commitValueBreakdown` and returns `undefined`; on an
axios cancellation it returns `'cancelled'` without touching state; on a
`CoreError` with a recognised code it writes that code to `errorCode`
and returns it; on any other error it writes `SERVER_ERROR` and returns
`undefined`. -/
def callEstimate (s : HookState) (outcome : EstimateOutcome) :
    HookState × CallEstimateReturn :=
  match outcome with
  | .success v b =>
    ({ s with commitValue := some v, commitValueBreakdown := some b },
      .undef)
  | .cancelled => (s, .cancelledMarker)
  | .coreError c => ({ s with errorCode := some c }, .errCode c)
  | .otherError => ({ s with errorCode := some BRC20ErrorCode.SERVER_ERROR }, .undef)

/-- The hook's `runEstimate`: first estimates with the actual UTXOs; if
and only if that returns `INSUFFICIENT_FUNDS`, estimates again with the
fictitious UTXO (strictly afterwards — the second call is awaited after
the first completes); a `'cancelled'` result short-circuits without
clearing `isLoading`.  Returns the resulting state and the ordered trace
of estimate calls issued. -/
def runEstimate (s : HookState) (primary fallback : EstimateOutcome) :
    HookState × List EstimateCall :=
  let r1 := callEstimate s primary
  if r1.2 = CallEstimateReturn.errCode BRC20ErrorCode.INSUFFICIENT_FUNDS then
    let r2 := callEstimate r1.1 fallback
    if r2.2 = CallEstimateReturn.cancelledMarker then
      (r2.1, [EstimateCall.primaryCall, EstimateCall.fallbackCall])
    else
      ({ r2.1 with isLoading := false },
        [EstimateCall.primaryCall, EstimateCall.fallbackCall])
  else if r1.2 = CallEstimateReturn.cancelledMarker then
    (r1.1, [EstimateCall.primaryCall])
  else
    ({ r1.1 with isLoading := false }, [EstimateCall.primaryCall])

/-- The start of the hook's `useEffect` body, run whenever any of
`tick`, `amount`, `revealAddress` or `feeRate` changes:
`setIsLoading(true)` and `setErrorCode(undefined)` — nothing else is
reset. -/
def effectStart (s : HookState) : HookState :=
  { s with isLoading := true, errorCode := none }

/-- One full run of the hook's effect for a new estimation request:
the state resets of `effectStart` followed by `runEstimate` with the
outcomes the two estimate calls would observe. -/
def brc20FeeEffect (s : HookState) (primary fallback : EstimateOutcome) :
    HookState × List EstimateCall :=
  runEstimate (effectStart s) primary fallback

/-- C6: the fallback (fictitious-UTXO) estimate is issued if and only if
the primary estimate failed with the `INSUFFICIENT_FUNDS` error code,
and then strictly after it in the call trace; every other primary
outcome ends the flow after the primary call alone. -/
theorem fallback_iff_insufficient_funds (s : HookState)
    (primary fallback : EstimateOutcome) :
    (brc20FeeEffect s primary fallback).2 =
      if primary = EstimateOutcome.coreError BRC20ErrorCode.INSUFFICIENT_FUNDS then
        [EstimateCall.primaryCall, EstimateCall.fallbackCall]
      else
        [EstimateCall.primaryCall] := by
  cases primary with
  | success v b => simp [brc20FeeEffect, runEstimate, callEstimate]
  | cancelled => simp [brc20FeeEffect, runEstimate, callEstimate]
  | coreError c =>
    cases c <;> cases fallback <;>
      simp [brc20FeeEffect, runEstimate, callEstimate]
  | otherError => simp [brc20FeeEffect, runEstimate, callEstimate]

/-- C8: cancellation short-circuits silently.  A cancelled primary
estimate leaves `commitValue` and `commitValueBreakdown` untouched and
`errorCode` unset (no error is reported; only the `isLoading := true`
from the effect start remains); a cancelled fallback likewise writes no
result and no error beyond the `INSUFFICIENT_FUNDS` already recorded by
the failed primary estimate. -/
theorem cancellation_is_silent (s : HookState) (fallback : EstimateOutcome) :
    brc20FeeEffect s EstimateOutcome.cancelled fallback =
      ({ s with isLoading := true, errorCode := none },
        [EstimateCall.primaryCall]) ∧
    brc20FeeEffect s (EstimateOutcome.coreError BRC20ErrorCode.INSUFFICIENT_FUNDS)
        EstimateOutcome.cancelled =
      ({ s with
          isLoading := true
          errorCode := some BRC20ErrorCode.INSUFFICIENT_FUNDS },
        [EstimateCall.primaryCall, EstimateCall.fallbackCall]) := by
  constructor
  · simp [brc20FeeEffect, runEstimate, callEstimate, effectStart]
  · simp [brc20FeeEffect, runEstimate, callEstimate, effectStart]

/-- C9: when the primary estimate fails with `INSUFFICIENT_FUNDS` and
the fallback succeeds, the final state carries both the
`INSUFFICIENT_FUNDS` error code (never cleared by the fallback's
success) and the fallback's advisory `commitValue` and
`commitValueBreakdown`, with loading finished. -/
theorem insufficient_funds_code_survives_fallback (s : HookState)
    (v : Nat) (b : CommitValueBreakdown) :
    brc20FeeEffect s (EstimateOutcome.coreError BRC20ErrorCode.INSUFFICIENT_FUNDS)
        (EstimateOutcome.success v b) =
      ({ commitValue := some v, commitValueBreakdown := some b,
          isLoading := false,
          errorCode := some BRC20ErrorCode.INSUFFICIENT_FUNDS },
        [EstimateCall.primaryCall, EstimateCall.fallbackCall]) := by
  simp [brc20FeeEffect, runEstimate, callEstimate, effectStart]

/-- C10: starting a new estimation request resets only `isLoading` and
`errorCode`; `commitValue` and `commitValueBreakdown` keep their stale
values from the previous estimate, both at the start of re-estimation
and after a re-estimation in which no estimate call succeeded. -/
theorem stale_values_retained (s : HookState) (primary fallback : EstimateOutcome)
    (hp : ∀ v b, primary ≠ EstimateOutcome.success v b)
    (hf : ∀ v b, fallback ≠ EstimateOutcome.success v b) :
    (effectStart s).commitValue = s.commitValue ∧
    (effectStart s).commitValueBreakdown = s.commitValueBreakdown ∧
    (effectStart s).isLoading = true ∧
    (effectStart s).errorCode = none ∧
    (brc20FeeEffect s primary fallback).1.commitValue = s.commitValue ∧
    (brc20FeeEffect s primary fallback).1.commitValueBreakdown =
      s.commitValueBreakdown := by
  refine ⟨rfl, rfl, rfl, rfl, ?_, ?_⟩ <;>
  · cases primary with
    | success v b => exact absurd rfl (hp v b)
    | cancelled => simp [brc20FeeEffect, runEstimate, callEstimate, effectStart]
    | coreError c =>
      cases c with
      | INSUFFICIENT_FUNDS =>
        cases fallback with
        | success v b => exact absurd rfl (hf v b)
        | cancelled =>
          simp [brc20FeeEffect, runEstimate, callEstimate, effectStart]
        | coreError c' =>
          cases c' <;> simp [brc20FeeEffect, runEstimate, callEstimate, effectStart]
        | otherError =>
          simp [brc20FeeEffect, runEstimate, callEstimate, effectStart]
      | SERVER_ERROR =>
        simp [brc20FeeEffect, runEstimate, callEstimate, effectStart]
    | otherError => simp [brc20FeeEffect, runEstimate, callEstimate, effectStart]

/-- C10 witness: with a previous successful estimate (commit value 12345)
in state, a re-estimation whose primary call fails with `SERVER_ERROR`
keeps the stale commit value and breakdown caller-visible. -/
theorem stale_values_retained_witness :
    (effectStart ⟨some 12345, some ⟨1, 2, 3, 4, 5⟩, false,
        none⟩).commitValue = some 12345 ∧
    (effectStart ⟨some 12345, some ⟨1, 2, 3, 4, 5⟩, false,
        none⟩).commitValueBreakdown = some ⟨1, 2, 3, 4, 5⟩ ∧
    (effectStart ⟨some 12345, some ⟨1, 2, 3, 4, 5⟩, false,
        none⟩).isLoading = true ∧
    (effectStart ⟨some 12345, some ⟨1, 2, 3, 4, 5⟩, false,
        none⟩).errorCode = none ∧
    (brc20FeeEffect ⟨some 12345, some ⟨1, 2, 3, 4, 5⟩, false, none⟩
        (EstimateOutcome.coreError BRC20ErrorCode.SERVER_ERROR)
        EstimateOutcome.otherError).1.commitValue = some 12345 ∧
    (brc20FeeEffect ⟨some 12345, some ⟨1, 2, 3, 4, 5⟩, false, none⟩
        (EstimateOutcome.coreError BRC20ErrorCode.SERVER_ERROR)
        EstimateOutcome.otherError).1.commitValueBreakdown = some ⟨1, 2, 3, 4, 5⟩ :=
  stale_values_retained ⟨some 12345, some ⟨1, 2, 3, 4, 5⟩, false, none⟩
    (EstimateOutcome.coreError BRC20ErrorCode.SERVER_ERROR)
    EstimateOutcome.otherError (by intro v b h; cases h) (by intro v b h; cases h)

end XverseCore
